import Mathlib

/-!
Verification development for the `coder` sandbox crate.

The Rust sources under `src/sandbox/src/` are shallowly embedded here:
paths are lists of parsed components (as produced by `std::path::Path::components`
on Unix), byte buffers are `List Nat`, Rust `String` values are represented by
their UTF-8 byte sequences, the on-disk workspace is an association list from
absolute paths to file contents, and every fallible Rust function becomes a
Lean function into `Except`.
-/

deriving instance DecidableEq for Except

namespace Coder

/-- Path components as produced by Rust `Path::components` (Unix flavour).
`prefixC` is the Windows `Component::Prefix` case, which never occurs on Unix
but is matched by the source code. -/
inductive Component where
  | prefixC : Component
  | rootDir : Component
  | curDir : Component
  | parentDir : Component
  | normal : String → Component
deriving DecidableEq

abbrev AbsPath := List String

abbrev Bytes := List Nat

/-- Source `errors.rs`: the crate-wide `SandboxError` taxonomy. Durations are modelled
as natural numbers of milliseconds; the wrapped `std::io::Error` cause is
abstracted away (`ioErr`). -/
inductive SandboxError where
  | pathTraversal
  | outsideRoot
  | fileTooLarge (bytes : Nat)
  | timeout (duration : Nat)
  | outputTooLarge (stream : String) (limit : Nat)
  | terminatedBySignal
  | ioErr
  | invalidOperation (msg : String)
  | wasmTrap (msg : String)
  | microImageNotConfigured (name : String)
  | microVmNotFound (id : String)
  | agentUnavailable (kind : String)
  | agentTaskNotFound (id : String)
  | contextTooLarge (provided : Nat) (limit : Nat)
  | agentFailed (msg : String)
  | network (msg : String)
  | cancelled
deriving DecidableEq

/-- Source `fs.rs`: the module-local `FsError` enum. The `AbsolutePath` variant
carries the offending path; the `Io` variant's cause is abstracted. -/
inductive FsError where
  | absolutePath (path : List Component)
  | traversalAttempt
  | workspaceRootInvalid
  | fileTooLarge (size : Nat) (limit : Nat)
  | ioError
deriving DecidableEq

/-- Source `path.rs` line 16: `relative.is_absolute()` on Unix holds exactly when the
parsed path starts with the root directory component. -/
def rustIsAbsolute (p : List Component) : Bool :=
  p.head? == some Component.rootDir

/-- Component-wise `Path::starts_with` check used by `path.rs` line 36. -/
def listStartsWith (l base : AbsPath) : Bool :=
  l.take base.length == base

/-- Source `path.rs` lines 25-33: the component loop of `resolve`. `CurDir` is
dropped, `Normal` is kept, `ParentDir` aborts with `PathTraversal`, and
`RootDir`/`Prefix` abort with `OutsideRoot`. -/
def cleanComponents : List Component → Except SandboxError (List String)
  | [] => .ok []
  | Component.curDir :: rest => cleanComponents rest
  | Component.normal s :: rest =>
      match cleanComponents rest with
      | .ok r => .ok (s :: r)
      | .error e => .error e
  | Component.parentDir :: _ => .error SandboxError.pathTraversal
  | Component.rootDir :: _ => .error SandboxError.outsideRoot
  | Component.prefixC :: _ => .error SandboxError.outsideRoot

/-- Source `path.rs` lines 14-40: `resolve(base_dir, relative)`. -/
def resolve (baseDir : AbsPath) (relative : List Component) :
    Except SandboxError AbsPath :=
  if relative.length = 0 then
    .error (SandboxError.invalidOperation "path must not be empty")
  else if rustIsAbsolute relative then
    .error SandboxError.outsideRoot
  else
    match cleanComponents relative with
    | .error e => .error e
    | .ok clean =>
        let resolved := baseDir ++ clean
        if listStartsWith resolved baseDir then .ok resolved
        else .error SandboxError.outsideRoot

/-- Source `fs.rs` line 22: `MAX_FILE_SIZE_BYTES`. -/
def MAX_FILE_SIZE_BYTES : Nat := 2 * 1024 * 1024

/-- Source `fs.rs` lines 119-138: the component loop of `sanitize_relative_path`.
The accumulator mirrors the `sanitized : PathBuf` being built: `Normal`
pushes, `ParentDir` pops (failing with `TraversalAttempt` when the buffer is
empty), `CurDir` is dropped, and `Prefix`/`RootDir` abort with
`AbsolutePath(original)`. -/
def sanitizeLoop (orig : List Component) :
    List Component → List String → Except FsError (List String)
  | [], acc => .ok acc
  | Component.prefixC :: _, _ => .error (FsError.absolutePath orig)
  | Component.rootDir :: _, _ => .error (FsError.absolutePath orig)
  | Component.curDir :: rest, acc => sanitizeLoop orig rest acc
  | Component.parentDir :: rest, acc =>
      match acc with
      | [] => .error FsError.traversalAttempt
      | _ :: _ => sanitizeLoop orig rest acc.dropLast
  | Component.normal s :: rest, acc => sanitizeLoop orig rest (acc ++ [s])

/-- Source `fs.rs` lines 119-138: `sanitize_relative_path`. -/
def sanitize_relative_path (p : List Component) : Except FsError (List String) :=
  sanitizeLoop p p []

/-- Source `fs.rs` lines 93-97: `resolve_workspace_path` joins the workspace root
(passed here explicitly, as `workspace_root()` reads it from the environment)
with the sanitized relative path. -/
def resolve_workspace_path (root : AbsPath) (p : List Component) :
    Except FsError AbsPath :=
  match sanitize_relative_path p with
  | .ok sanitized => .ok (root ++ sanitized)
  | .error e => .error e

/-- The workspace contents: an association list from absolute paths to file
bytes; the most recent binding for a path shadows earlier ones. -/
abbrev FileSystem := List (AbsPath × Bytes)

def fsLookup (fs : FileSystem) (p : AbsPath) : Option Bytes :=
  (fs.find? (fun e => e.1 == p)).map (fun e => e.2)

def fsInsert (fs : FileSystem) (p : AbsPath) (data : Bytes) : FileSystem :=
  (p, data) :: fs

/-- Continuation byte of a UTF-8 sequence: `0x80 ..= 0xBF`. -/
def isCont (b : Nat) : Bool := 0x80 ≤ b && b ≤ 0xBF

/-- UTF-8 validity of a byte sequence, exactly as enforced by Rust's
`std::str` machinery (no overlong encodings, no surrogates, max U+10FFFF).
`fs::read_to_string` fails with an `InvalidData` I/O error on any sequence
for which this is false. -/
def validUtf8 : List Nat → Bool
  | [] => true
  | b0 :: rest =>
    if b0 ≤ 0x7F then validUtf8 rest
    else if 0xC2 ≤ b0 && b0 ≤ 0xDF then
      match rest with
      | b1 :: rest1 => isCont b1 && validUtf8 rest1
      | [] => false
    else if b0 == 0xE0 then
      match rest with
      | b1 :: b2 :: rest2 =>
          (0xA0 ≤ b1 && b1 ≤ 0xBF) && isCont b2 && validUtf8 rest2
      | _ => false
    else if (0xE1 ≤ b0 && b0 ≤ 0xEC) || b0 == 0xEE || b0 == 0xEF then
      match rest with
      | b1 :: b2 :: rest2 => isCont b1 && isCont b2 && validUtf8 rest2
      | _ => false
    else if b0 == 0xED then
      match rest with
      | b1 :: b2 :: rest2 =>
          (0x80 ≤ b1 && b1 ≤ 0x9F) && isCont b2 && validUtf8 rest2
      | _ => false
    else if b0 == 0xF0 then
      match rest with
      | b1 :: b2 :: b3 :: rest3 =>
          (0x90 ≤ b1 && b1 ≤ 0xBF) && isCont b2 && isCont b3 && validUtf8 rest3
      | _ => false
    else if 0xF1 ≤ b0 && b0 ≤ 0xF3 then
      match rest with
      | b1 :: b2 :: b3 :: rest3 =>
          isCont b1 && isCont b2 && isCont b3 && validUtf8 rest3
      | _ => false
    else if b0 == 0xF4 then
      match rest with
      | b1 :: b2 :: b3 :: rest3 =>
          (0x80 ≤ b1 && b1 ≤ 0x8F) && isCont b2 && isCont b3 && validUtf8 rest3
      | _ => false
    else false

/-- Source `fs.rs` lines 48-76: `write_file`. The size cap is checked before the
path is resolved; on success the target file (parents created implicitly) is
overwritten with the new contents. -/
def write_file (root : AbsPath) (fs : FileSystem) (p : List Component)
    (data : Bytes) : Except FsError FileSystem :=
  if data.length > MAX_FILE_SIZE_BYTES then
    .error (FsError.fileTooLarge data.length MAX_FILE_SIZE_BYTES)
  else
    match resolve_workspace_path root p with
    | .error e => .error e
    | .ok target => .ok (fsInsert fs target data)

/-- Source `fs.rs` lines 79-91: `read_file`. `fs::metadata` fails with an I/O error
for a missing file; an oversized file yields `FileTooLarge`; and
`read_to_string` fails with an I/O error (`InvalidData`) unless the bytes are
valid UTF-8, in which case the returned `String` is exactly those bytes. -/
def read_file (root : AbsPath) (fs : FileSystem) (p : List Component) :
    Except FsError Bytes :=
  match resolve_workspace_path root p with
  | .error e => .error e
  | .ok target =>
    match fsLookup fs target with
    | none => .error FsError.ioError
    | some data =>
      if data.length > MAX_FILE_SIZE_BYTES then
        .error (FsError.fileTooLarge data.length MAX_FILE_SIZE_BYTES)
      else if validUtf8 data then .ok data
      else .error FsError.ioError

/-! ## Process runner (`run.rs`) -/

/-- Source `run.rs` lines 50-54: which captured stream an error refers to. -/
inductive OutputStream where
  | stdout
  | stderr
deriving DecidableEq

/-- Source `run.rs` lines 66-88: `RunError`. The `Io` cause is abstracted. -/
inductive RunError where
  | commandNotAllowed (cmd : String)
  | timeout (duration : Nat)
  | outputLimit (stream : OutputStream) (limit : Nat)
  | missingStream (stream : OutputStream)
  | readerThread
  | workspace (e : FsError)
  | ioErr
deriving DecidableEq

/-- Source `run.rs` line 20: `DEFAULT_EXECUTION_TIMEOUT` (5 s, in milliseconds). -/
def DEFAULT_EXECUTION_TIMEOUT : Nat := 5000

/-- Source `run.rs` line 23: `MAX_OUTPUT_BYTES`. -/
def MAX_OUTPUT_BYTES : Nat := 512 * 1024

/-- Source `run.rs` lines 29-48: `ALLOWED_COMMANDS`. -/
def ALLOWED_COMMANDS : List String :=
  ["sh", "/bin/sh", "bash", "/bin/bash", "python3", "/usr/bin/python3",
   "node", "/usr/bin/node", "deno", "/usr/bin/deno", "cargo", "/usr/bin/cargo",
   "npm", "/usr/bin/npm", "pnpm", "/usr/bin/pnpm", "yarn", "/usr/bin/yarn"]

/-- Source `run.rs` lines 240-242: `is_command_allowed`. -/
def is_command_allowed (command : String) : Bool :=
  ALLOWED_COMMANDS.contains command

/-- Source `run.rs` lines 91-97: `ExecuteConfig`. -/
structure ExecuteConfig where
  timeout : Option Nat
  working_directory : Option (List Component)
deriving DecidableEq

/-- The fully validated spawn parameters of `execute_with_config` at the
point where `cmd.spawn()` is reached (`run.rs` line 151): command, argument
list, resolved working directory and effective timeout. -/
structure SpawnPlan where
  command : String
  args : List String
  cwd : AbsPath
  timeout : Nat
deriving DecidableEq

/-- Source `run.rs` lines 118-151: the policy-validation phase of
`execute_with_config`, up to the spawn boundary. The workspace root is passed
explicitly (the source reads it from the environment); the home-directory
creation and environment scrubbing are I/O effects with no bearing on
acceptance. Note the source performs no validation of the effective timeout:
`config.timeout.unwrap_or(DEFAULT_EXECUTION_TIMEOUT)` is used as-is. -/
def execute_with_config (root : AbsPath) (command : String)
    (args : List String) (config : ExecuteConfig) :
    Except RunError SpawnPlan :=
  if ¬ is_command_allowed command then
    .error (RunError.commandNotAllowed command)
  else
    let t := config.timeout.getD DEFAULT_EXECUTION_TIMEOUT
    match config.working_directory with
    | some dir =>
        match resolve_workspace_path root dir with
        | .error e => .error (RunError.workspace e)
        | .ok wd => .ok ⟨command, args, wd, t⟩
    | none => .ok ⟨command, args, root, t⟩

/-- Source `run.rs` lines 192-213: the loop of `read_stream`. The captured stream is
modelled as the list of successive non-empty `read` results; the byte cap is
enforced before each chunk is appended. -/
def readStreamLoop (stream : OutputStream) :
    List Bytes → Bytes → Except RunError Bytes
  | [], buf => .ok buf
  | chunk :: rest, buf =>
      if buf.length + chunk.length > MAX_OUTPUT_BYTES then
        .error (RunError.outputLimit stream MAX_OUTPUT_BYTES)
      else readStreamLoop stream rest (buf ++ chunk)

/-- Source `run.rs` lines 192-213: `read_stream`. -/
def read_stream (stream : OutputStream) (chunks : List Bytes) :
    Except RunError Bytes :=
  readStreamLoop stream chunks []

/-! ## Micro-VM runner (`micro.rs`) -/

/-- Source `micro.rs` lines 261-275: timeout resolution and validation inside
`SandboxMicro::execute`: the requested value (or the configured default when
absent) must be non-zero and must not exceed the configured maximum. -/
def validateMicroTimeout (requested : Option Nat)
    (defaultTimeout maxTimeout : Nat) : Except SandboxError Nat :=
  let t := requested.getD defaultTimeout
  if t = 0 then
    .error (SandboxError.invalidOperation
      "micro execution timeout must be greater than zero")
  else if t > maxTimeout then
    .error (SandboxError.invalidOperation
      "requested timeout exceeds maximum")
  else .ok t

/-- Raw result of `wait_with_output`: exit code (`none` when the child was
terminated by a signal) plus the captured streams. -/
structure RawOutput where
  exitStatusCode : Option Int
  stdout : Bytes
  stderr : Bytes
deriving DecidableEq

/-- Source `micro.rs` lines 332-337: `MicroOutput`. -/
structure MicroOutput where
  exit_code : Int
  stdout : Bytes
  stderr : Bytes
  duration : Nat
deriving DecidableEq

/-- Source `micro.rs` lines 398-421: the post-termination phase of `run_code`:
reject oversized stdout, then oversized stderr, then signal termination, and
otherwise return the captured output. -/
def microFinish (maxOutputBytes : Nat) (output : RawOutput) (duration : Nat) :
    Except SandboxError MicroOutput :=
  if output.stdout.length > maxOutputBytes then
    .error (SandboxError.outputTooLarge "stdout" maxOutputBytes)
  else if output.stderr.length > maxOutputBytes then
    .error (SandboxError.outputTooLarge "stderr" maxOutputBytes)
  else
    match output.exitStatusCode with
    | none => .error SandboxError.terminatedBySignal
    | some code => .ok ⟨code, output.stdout, output.stderr, duration⟩

/-! ## WebAssembly runner (`wasm.rs`) -/

/-- Source `wasm.rs` lines 10-16: the immutable `WasmConfig` (root omitted: the
per-call limit logic does not touch it). `WasmConfig::new` rejects zero
defaults, so configured defaults are non-zero in any constructed config. -/
structure WasmConfig where
  max_memory_bytes : Nat
  max_table_elements : Nat
  default_fuel : Option Nat
deriving DecidableEq

/-- Source `wasm.rs` lines 120-144: the per-call resource-limit resolution of
`invoke_from_bytes`: the fuel budget is the per-call value or the configured
default (`fuel.or(self.config.default_fuel)`) and is applied without a zero
check; the memory and table limits are the per-call values or the configured
defaults, each rejected with `InvalidOperation` when zero. Returns the
resolved `(fuel budget, memory limit, table limit)` used for the store. -/
def wasmLimits (cfg : WasmConfig) (fuel memoryLimit : Option Nat)
    (tableElementsLimit : Option Nat) :
    Except SandboxError (Option Nat × Nat × Nat) :=
  let fuelBudget :=
    match fuel with
    | some f => some f
    | none => cfg.default_fuel
  let memLimit := memoryLimit.getD cfg.max_memory_bytes
  if memLimit = 0 then
    .error (SandboxError.invalidOperation
      "wasm memory limit must be greater than zero")
  else
    let tabLimit := tableElementsLimit.getD cfg.max_table_elements
    if tabLimit = 0 then
      .error (SandboxError.invalidOperation
        "wasm table element limit must be greater than zero")
    else .ok (fuelBudget, memLimit, tabLimit)

/-! ## Agent dispatcher (`agent_dispatcher.rs`)

Task ids (`Uuid`) and timestamps (`DateTime<Utc>`) are modelled as natural
numbers; fresh ids and clock readings are passed in explicitly.
`serde_json::Value` metadata is modelled as its serialized text. The f32
sampling parameters (`temperature`, `top_p`) are floating point and outside
the embedding; they do not affect any registry logic. -/

/-- Source `agent_dispatcher.rs` lines 66-75: `AgentKind`. -/
inductive AgentKind where
  | code
  | test
  | design
  | debug
  | security
  | doc
deriving DecidableEq

/-- Source `agent_dispatcher.rs` lines 77-89: the `Display` labels. -/
def AgentKind.label : AgentKind → String
  | .code => "code"
  | .test => "test"
  | .design => "design"
  | .debug => "debug"
  | .security => "security"
  | .doc => "doc"

/-- Source `agent_dispatcher.rs` lines 235-243: `AgentTaskStatus`. -/
inductive AgentTaskStatus where
  | pending
  | running
  | completed
  | failed
  | cancelled
deriving DecidableEq

/-- Source `agent_dispatcher.rs` lines 245-252: `AgentTaskStatus::is_terminal`. -/
def AgentTaskStatus.isTerminal : AgentTaskStatus → Bool
  | .completed => true
  | .failed => true
  | .cancelled => true
  | _ => false

/-- Source `agent_dispatcher.rs` lines 138-144: `AgentFileContent`. -/
inductive AgentFileContent where
  | utf8 (value : String)
  | base64 (value : String)
deriving DecidableEq

/-- Source `agent_dispatcher.rs` lines 213-233: `AgentAction`. -/
inductive AgentAction where
  | message (title : String) (body : String)
  | filePatch (path : String) (patch : String)
  | fileWrite (path : String) (content : AgentFileContent)
  | command (command : String) (args : List String)
deriving DecidableEq

/-- Source `agent_dispatcher.rs` lines 192-200: `AgentOutcome`. -/
structure AgentOutcome where
  summary : String
  insights : List String
  actions : List AgentAction
  raw_response : String
deriving DecidableEq

/-- Source `agent_dispatcher.rs` lines 116-122: `AgentContextFile`. -/
structure AgentContextFile where
  path : Option String
  title : String
  content : AgentFileContent
deriving DecidableEq

/-- Source `agent_dispatcher.rs` lines 91-97: `AgentContext`. -/
structure AgentContext where
  notes : List String
  files : List AgentContextFile
deriving DecidableEq

def emptyContext : AgentContext := ⟨[], []⟩

/-- Decoded length of a base64 payload under the `STANDARD` (padded) engine
used at `agent_dispatcher.rs` line 150: length must be a multiple of four,
all characters must come from the standard alphabet with at most two trailing
`=` pads, and the decoded size is `len / 4 * 3` minus the pad count. -/
def base64DecodedLen (s : String) : Except SandboxError Nat :=
  let cs := s.toList
  let n := cs.length
  let pad := (cs.drop (n - 2)).countP (fun c => c == '=')
  let bodyOk := (cs.take (n - pad)).all
    (fun c => c.isAlphanum || c == '+' || c == '/')
  if n % 4 = 0 && bodyOk && (cs.take (n - pad)).all (fun c => !(c == '=')) then
    .ok (n / 4 * 3 - pad)
  else .error (SandboxError.invalidOperation "invalid base64 context payload")

/-- Source `agent_dispatcher.rs` lines 146-158: `AgentFileContent::bytes_len`. -/
def AgentFileContent.bytesLen : AgentFileContent → Except SandboxError Nat
  | .utf8 value => .ok value.utf8ByteSize
  | .base64 value => base64DecodedLen value

/-- Source `agent_dispatcher.rs` lines 100-113: `AgentContext::total_bytes` (the
`checked_add` overflow guard is vacuous over `Nat`). -/
def AgentContext.totalBytes (ctx : AgentContext) : Except SandboxError Nat :=
  match ctx.files.foldlM (fun acc f => (f.content.bytesLen).map (acc + ·))
      (ctx.notes.foldl (fun acc note => acc + note.utf8ByteSize) 0) with
  | .ok n => .ok n
  | .error e => .error e

/-- The Unicode `White_Space` code points recognised by Rust's
`char::is_whitespace`, which underlies `str::trim`. -/
def rustIsWhitespaceChar (c : Char) : Bool :=
  c.toNat ∈ [0x09, 0x0A, 0x0B, 0x0C, 0x0D, 0x20, 0x85, 0xA0, 0x1680,
    0x2000, 0x2001, 0x2002, 0x2003, 0x2004, 0x2005, 0x2006, 0x2007,
    0x2008, 0x2009, 0x200A, 0x2028, 0x2029, 0x202F, 0x205F, 0x3000]

/-- Rust `str::trim`: strip leading and trailing whitespace. -/
def rustTrim (s : String) : String :=
  String.mk
    (((s.toList.dropWhile rustIsWhitespaceChar).reverse.dropWhile
      rustIsWhitespaceChar).reverse)

/-- Source `agent_dispatcher.rs` lines 160-176: `AgentParameters`, keeping the
integral `max_tokens` field (the f32 fields are outside the embedding). -/
structure AgentParameters where
  max_tokens : Option Nat
deriving DecidableEq

def AgentParameters.defaults : AgentParameters := ⟨some 768⟩

/-- Source `agent_dispatcher.rs` lines 178-190: `AgentDispatchRequest`. -/
structure AgentDispatchRequest where
  agent : AgentKind
  objective : String
  context : AgentContext
  model : Option String
  metadata : Option String
  parameters : Option AgentParameters
deriving DecidableEq

/-- Source `agent_dispatcher.rs` lines 290-303: the lock-guarded `AgentTaskState`. -/
structure AgentTaskState where
  id : Nat
  agent : AgentKind
  objective : String
  model : String
  status : AgentTaskStatus
  created_at : Nat
  started_at : Option Nat
  finished_at : Option Nat
  outcome : Option AgentOutcome
  errMsg : Option String
  metadata : Option String
  parameters : AgentParameters
deriving DecidableEq

/-- Source `agent_dispatcher.rs` lines 254-275: `AgentTaskSnapshot` (the `summary`
field is derived from the outcome when the snapshot is taken). -/
structure AgentTaskSnapshot where
  id : Nat
  agent : AgentKind
  status : AgentTaskStatus
  objective : String
  model : String
  summary : Option String
  errMsg : Option String
  created_at : Nat
  started_at : Option Nat
  finished_at : Option Nat
  outcome : Option AgentOutcome
  metadata : Option String
  parameters : AgentParameters
deriving DecidableEq

/-- Source `agent_dispatcher.rs` lines 330-346: `AgentTaskState::snapshot`. -/
def AgentTaskState.snapshot (st : AgentTaskState) : AgentTaskSnapshot :=
  ⟨st.id, st.agent, st.status, st.objective, st.model,
   st.outcome.map (fun o => o.summary), st.errMsg, st.created_at,
   st.started_at, st.finished_at, st.outcome, st.metadata, st.parameters⟩

/-- Source `agent_dispatcher.rs` lines 305-328: `AgentTaskState::new`. -/
def AgentTaskState.mkNew (id : Nat) (agent : AgentKind) (objective : String)
    (model : String) (metadata : Option String)
    (parameters : AgentParameters) (now : Nat) : AgentTaskState :=
  ⟨id, agent, objective, model, AgentTaskStatus.pending, now, none, none,
   none, none, metadata, parameters⟩

/-- Source `agent_dispatcher.rs` lines 283-288: an `active`-registry entry: the
shared task state plus the one-shot cancellation token (a latched flag). -/
structure AgentTaskEntry where
  state : AgentTaskState
  cancelRequested : Bool
deriving DecidableEq

/-- Source `agent_dispatcher.rs` lines 277-281: `AgentTaskSubmission`. -/
structure AgentTaskSubmission where
  id : Nat
  status : AgentTaskSnapshot
deriving DecidableEq

/-- The dispatcher's two mutable registries (`tasks` and `history`,
`agent_dispatcher.rs` lines 384-385). `active` is keyed by task id;
`history` is the `VecDeque` in insertion order (front = oldest). -/
structure DispatcherState where
  active : List (Nat × AgentTaskEntry)
  history : List AgentTaskSnapshot
deriving DecidableEq

def emptyDispatcher : DispatcherState := ⟨[], []⟩

/-- The configuration fields consulted by the registry logic
(`agent_dispatcher.rs` lines 23-31), plus the set of registered agent kinds
standing in for the `agents` map's key set. -/
structure DispatcherConfig where
  default_model : String
  history_capacity : Nat
  max_context_bytes : Nat
  agents : List AgentKind
deriving DecidableEq

def lookupActive (s : DispatcherState) (id : Nat) : Option AgentTaskEntry :=
  (s.active.find? (fun e => e.1 == id)).map (fun e => e.2)

def setActive (s : DispatcherState) (id : Nat) (entry : AgentTaskEntry) :
    DispatcherState :=
  { s with active := s.active.map (fun kv => if kv.1 == id then (kv.1, entry) else kv) }

def removeActive (s : DispatcherState) (id : Nat) : DispatcherState :=
  { s with active := s.active.filter (fun kv => !(kv.1 == id)) }

/-- Source `agent_dispatcher.rs` lines 510-514: append to history, evicting from the
front while over capacity. -/
def pushHistory (s : DispatcherState) (snap : AgentTaskSnapshot)
    (capacity : Nat) : DispatcherState :=
  let h := s.history ++ [snap]
  { s with history := if h.length ≤ capacity then h else h.drop (h.length - capacity) }

/-- Source `agent_dispatcher.rs` lines 416-522: the synchronous part of `dispatch`.
Checks run in source order — trimmed-objective emptiness, agent lookup,
context size — before the task id is consumed and the `Pending` entry is
inserted into `active`. On any error the registries are untouched (the id and
clock arguments model `Uuid::new_v4()` and `Utc::now()`). -/
def dispatch (cfg : DispatcherConfig) (s : DispatcherState)
    (request : AgentDispatchRequest) (freshId : Nat) (now : Nat) :
    Except SandboxError AgentTaskSubmission × DispatcherState :=
  if (rustTrim request.objective).isEmpty then
    (.error (SandboxError.invalidOperation "objective must not be empty"), s)
  else if ¬ cfg.agents.contains request.agent then
    (.error (SandboxError.agentUnavailable request.agent.label), s)
  else
    match request.context.totalBytes with
    | .error e => (.error e, s)
    | .ok contextSize =>
      if contextSize > cfg.max_context_bytes then
        (.error (SandboxError.contextTooLarge contextSize cfg.max_context_bytes), s)
      else
        let parameters := request.parameters.getD AgentParameters.defaults
        let model := request.model.getD cfg.default_model
        let st := AgentTaskState.mkNew freshId request.agent request.objective
          model request.metadata parameters now
        let entry : AgentTaskEntry := ⟨st, false⟩
        let s1 := { s with active := (freshId, entry) :: s.active }
        (.ok ⟨freshId, st.snapshot⟩, s1)

/-- Source `agent_dispatcher.rs` lines 472-478: the worker's `Pending → Running`
transition. -/
def workerStart (s : DispatcherState) (id : Nat) (now : Nat) :
    DispatcherState :=
  match lookupActive s id with
  | none => s
  | some entry =>
      if entry.state.status = AgentTaskStatus.pending then
        setActive s id
          { entry with state :=
              { entry.state with status := AgentTaskStatus.running,
                                 started_at := some now } }
      else s

/-- Display rendering of `SandboxError` (`errors.rs` `thiserror` messages),
used when the worker records a failure message. -/
def SandboxError.toMessage : SandboxError → String
  | .pathTraversal => "path traversal detected"
  | .outsideRoot => "operation outside sandbox root"
  | .fileTooLarge n => "file too large: " ++ toString n ++ " bytes exceeds limit"
  | .timeout d => "process execution timed out after " ++ toString d ++ "ms"
  | .outputTooLarge stream limit =>
      "process produced " ++ stream ++ " output exceeding limit of "
        ++ toString limit ++ " bytes"
  | .terminatedBySignal => "process terminated by signal"
  | .ioErr => "io error"
  | .invalidOperation msg => "invalid operation: " ++ msg
  | .wasmTrap msg => "wasm trap: " ++ msg
  | .microImageNotConfigured name =>
      "micro image '" ++ name ++ "' is not configured"
  | .microVmNotFound id => "micro vm '" ++ id ++ "' not found"
  | .agentUnavailable kind => "agent '" ++ kind ++ "' is not registered"
  | .agentTaskNotFound id => "agent task '" ++ id ++ "' not found"
  | .contextTooLarge provided limit =>
      "agent context size " ++ toString provided ++ " bytes exceeds limit "
        ++ toString limit
  | .agentFailed msg => "agent execution failed: " ++ msg
  | .network msg => "network request failed: " ++ msg
  | .cancelled => "agent operation cancelled"

/-- Source `agent_dispatcher.rs` lines 479-515: the worker's finalization after the
agent's `execute` future resolves. Under the state lock: a task already
`Cancelled` only gets `finished_at` backfilled, otherwise success maps to
`Completed`, a `Cancelled` error to `Cancelled`, and any other error to
`Failed` with its message. The final snapshot leaves `active` and is appended
to `history` with front eviction. (The worker holds the entry it created, so
the `none` branch is unreachable in the real flow.) -/
def workerFinalize (capacity : Nat) (s : DispatcherState) (id : Nat)
    (outcome : Except SandboxError AgentOutcome) (now : Nat) :
    DispatcherState :=
  match lookupActive s id with
  | none => s
  | some entry =>
    let st := entry.state
    let st1 :=
      if st.status = AgentTaskStatus.cancelled then
        { st with finished_at := some (st.finished_at.getD now) }
      else
        match outcome with
        | .ok result =>
            { st with status := AgentTaskStatus.completed,
                      finished_at := some now, outcome := some result }
        | .error SandboxError.cancelled =>
            { st with status := AgentTaskStatus.cancelled,
                      finished_at := some now }
        | .error other =>
            { st with status := AgentTaskStatus.failed,
                      finished_at := some now,
                      errMsg := some other.toMessage }
    pushHistory (removeActive s id) st1.snapshot capacity

/-- Source `agent_dispatcher.rs` lines 524-542: `cancel`. A miss in `active` is
`AgentTaskNotFound`. Otherwise the cancellation token is fired; under the
state lock a terminal task's snapshot is returned unchanged, and a
non-terminal task is forced to `Cancelled` with `finished_at = now`. -/
def cancel (s : DispatcherState) (id : Nat) (now : Nat) :
    Except SandboxError AgentTaskSnapshot × DispatcherState :=
  match lookupActive s id with
  | none => (.error (SandboxError.agentTaskNotFound (toString id)), s)
  | some entry =>
    let fired := { entry with cancelRequested := true }
    if entry.state.status.isTerminal then
      (.ok entry.state.snapshot, setActive s id fired)
    else
      let st1 := { entry.state with status := AgentTaskStatus.cancelled,
                                    finished_at := some now }
      (.ok st1.snapshot, setActive s id { fired with state := st1 })

/-! ## Helper lemmas -/

lemma take_append_self {α : Type} (base l : List α) :
    (base ++ l).take base.length = base := by
  induction base with
  | nil => rfl
  | cons a rest ih => simp [List.take, ih]

/-- The `Normal` segment strings of a component list, in order. -/
def extractNormals (p : List Component) : List String :=
  p.filterMap (fun c => match c with | Component.normal s => some s | _ => none)

lemma cleanComponents_ok_extract :
    ∀ (p : List Component) (l : List String),
      cleanComponents p = .ok l → l = extractNormals p := by
  intro p
  induction p with
  | nil => intro l h; simpa [cleanComponents, extractNormals] using h.symm
  | cons c rest ih =>
    intro l h
    cases c with
    | curDir =>
        simp only [cleanComponents] at h
        simpa [extractNormals] using ih l h
    | normal s =>
        simp only [cleanComponents] at h
        cases hr : cleanComponents rest with
        | ok r =>
            rw [hr] at h
            simp only [Except.ok.injEq] at h
            simp [extractNormals, ← h, ih r hr]
        | error e => rw [hr] at h; cases h
    | parentDir => cases h
    | rootDir => cases h
    | prefixC => cases h

lemma cleanComponents_parent_error :
    ∀ (p : List Component), Component.rootDir ∉ p → Component.prefixC ∉ p →
      Component.parentDir ∈ p →
      cleanComponents p = .error SandboxError.pathTraversal := by
  intro p
  induction p with
  | nil => intro _ _ hmem; cases hmem
  | cons c rest ih =>
    intro hroot hpre hmem
    cases c with
    | curDir =>
        have hm : Component.parentDir ∈ rest := by
          cases hmem with
          | tail _ h => exact h
        simp only [cleanComponents]
        exact ih (fun h => hroot (List.mem_cons_of_mem _ h))
          (fun h => hpre (List.mem_cons_of_mem _ h)) hm
    | normal s =>
        have hm : Component.parentDir ∈ rest := by
          cases hmem with
          | tail _ h => exact h
        simp only [cleanComponents]
        rw [ih (fun h => hroot (List.mem_cons_of_mem _ h))
          (fun h => hpre (List.mem_cons_of_mem _ h)) hm]
    | parentDir => rfl
    | rootDir => exact absurd (List.mem_cons_self _ _) hroot
    | prefixC => exact absurd (List.mem_cons_self _ _) hpre

/-! ## C2 — path resolver contract -/

/-- C2: the path resolver `resolve(root, relative)` rejects an empty input
with `InvalidOperation`, any absolute input with `OutsideRoot`, and any
(relative, well-parsed) input containing a parent-directory segment with
`PathTraversal`; current-directory segments are dropped (an accepted input
yields exactly the root joined with the input's normal segments), and every
accepted result has the root as a prefix. -/
theorem c2_resolve_spec :
    (∀ root : AbsPath, resolve root [] =
      .error (SandboxError.invalidOperation "path must not be empty")) ∧
    (∀ (root : AbsPath) (p : List Component), rustIsAbsolute p = true →
      resolve root p = .error SandboxError.outsideRoot) ∧
    (∀ (root : AbsPath) (p : List Component), p ≠ [] →
      Component.rootDir ∉ p → Component.prefixC ∉ p →
      Component.parentDir ∈ p →
      resolve root p = .error SandboxError.pathTraversal) ∧
    (∀ (root : AbsPath) (p : List Component) (r : AbsPath),
      resolve root p = .ok r →
      r = root ++ extractNormals p ∧ r.take root.length = root) := by
  refine ⟨?_, ?_, ?_, ?_⟩
  · intro root; rfl
  · intro root p habs
    cases p with
    | nil => simp [rustIsAbsolute] at habs
    | cons c rest =>
        have hc : c = Component.rootDir := by
          simpa [rustIsAbsolute] using habs
        subst hc
        simp [resolve, rustIsAbsolute]
  · intro root p hne hroot hpre hmem
    have hclean := cleanComponents_parent_error p hroot hpre hmem
    have habs : rustIsAbsolute p = false := by
      cases p with
      | nil => rfl
      | cons c rest =>
          cases c with
          | rootDir => exact absurd (List.mem_cons_self _ _) hroot
          | curDir => rfl
          | parentDir => rfl
          | normal s => rfl
          | prefixC => rfl
    have hlen : ¬ p.length = 0 := by
      cases p with
      | nil => exact absurd rfl hne
      | cons c rest => simp
    simp [resolve, hlen, habs, hclean]
  · intro root p r hok
    by_cases hlen : p.length = 0
    · simp [resolve, hlen] at hok
    · by_cases habs : rustIsAbsolute p = true
      · simp [resolve, hlen, habs] at hok
      · rw [resolve] at hok
        simp only [hlen, if_false, Bool.not_eq_true] at hok
        rw [if_neg (by simp [Bool.not_eq_true] at habs; simp [habs])] at hok
        cases hclean : cleanComponents p with
        | error e => rw [hclean] at hok; cases hok
        | ok clean =>
            rw [hclean] at hok
            simp only at hok
            have hext := cleanComponents_ok_extract p clean hclean
            by_cases hsw : listStartsWith (root ++ clean) root = true
            · rw [if_pos hsw] at hok
              have hr : r = root ++ clean := by
                simpa using hok.symm
              subst hr
              exact ⟨by rw [hext], take_append_self root clean⟩
            · rw [if_neg hsw] at hok; cases hok

/-- C2 witness: concrete instances of every clause. -/
theorem c2_resolve_spec_witness :
    resolve ["ws"] [] =
      .error (SandboxError.invalidOperation "path must not be empty") ∧
    resolve ["ws"] [Component.rootDir, Component.normal "etc"] =
      .error SandboxError.outsideRoot ∧
    resolve ["ws"] [Component.parentDir, Component.normal "escape"] =
      .error SandboxError.pathTraversal ∧
    (["ws", "a", "b"] : AbsPath) = ["ws"] ++
        extractNormals [Component.curDir, Component.normal "a", Component.normal "b"] ∧
    (["ws", "a", "b"] : AbsPath).take 1 = ["ws"] := by
  refine ⟨c2_resolve_spec.1 ["ws"], c2_resolve_spec.2.1 ["ws"] _ (by decide),
    c2_resolve_spec.2.2.1 ["ws"] _ (by decide) (by decide) (by decide)
      (by decide), ?_⟩
  have h := c2_resolve_spec.2.2.2 ["ws"]
    [Component.curDir, Component.normal "a", Component.normal "b"]
    ["ws", "a", "b"] (by decide)
  simpa using h

/-! ## C10 — "." resolves to the root -/

/-- C10: the relative path `.` (a single current-directory component) is a
non-empty component sequence, is accepted by the resolver, and resolves to
the workspace root itself. -/
theorem c10_curdir_resolves_to_root (root : AbsPath) :
    resolve root [Component.curDir] = .ok root := by
  simp [resolve, rustIsAbsolute, cleanComponents, listStartsWith]

/-! ## Escape analysis for `fs.rs` sanitization -/

/-- Number of `..` components. -/
def parentsCount : List Component → Nat
  | [] => 0
  | Component.parentDir :: rest => parentsCount rest + 1
  | _ :: rest => parentsCount rest

/-- Number of `Normal` components. -/
def normalsCount : List Component → Nat
  | [] => 0
  | Component.normal _ :: rest => normalsCount rest + 1
  | _ :: rest => normalsCount rest

/-- A component sequence escapes the root exactly when some prefix of it
contains more `..` segments than normal segments (the `PathBuf::pop` in
`sanitize_relative_path` then fails). -/
def escapesB (p : List Component) : Bool :=
  (List.range (p.length + 1)).any
    (fun i => normalsCount (p.take i) < parentsCount (p.take i))

lemma sanitizeLoop_escape (orig : List Component) :
    ∀ (rest : List Component) (acc : List String),
      Component.rootDir ∉ rest → Component.prefixC ∉ rest →
      (∃ i, normalsCount (rest.take i) + acc.length <
        parentsCount (rest.take i)) →
      sanitizeLoop orig rest acc = .error FsError.traversalAttempt := by
  intro rest
  induction rest with
  | nil =>
      intro acc _ _ ⟨i, hi⟩
      simp [parentsCount, normalsCount] at hi
  | cons c rest ih =>
      intro acc hroot hpre ⟨i, hi⟩
      have hrootR : Component.rootDir ∉ rest :=
        fun h => hroot (List.mem_cons_of_mem _ h)
      have hpreR : Component.prefixC ∉ rest :=
        fun h => hpre (List.mem_cons_of_mem _ h)
      cases c with
      | curDir =>
          simp only [sanitizeLoop]
          cases i with
          | zero => simp [parentsCount, normalsCount] at hi
          | succ k =>
              refine ih acc hrootR hpreR ⟨k, ?_⟩
              simpa [parentsCount, normalsCount] using hi
      | normal s =>
          simp only [sanitizeLoop]
          cases i with
          | zero => simp [parentsCount, normalsCount] at hi
          | succ k =>
              refine ih (acc ++ [s]) hrootR hpreR ⟨k, ?_⟩
              simp only [List.take, parentsCount, normalsCount,
                List.length_append, List.length_cons, List.length_nil] at hi ⊢
              omega
      | parentDir =>
          cases acc with
          | nil => rfl
          | cons a as =>
              simp only [sanitizeLoop]
              cases i with
              | zero => simp [parentsCount, normalsCount] at hi
              | succ k =>
                  refine ih (a :: as).dropLast hrootR hpreR ⟨k, ?_⟩
                  simp only [List.take, parentsCount, normalsCount,
                    List.length_dropLast, List.length_cons] at hi ⊢
                  omega
      | rootDir => exact absurd (List.mem_cons_self _ _) hroot
      | prefixC => exact absurd (List.mem_cons_self _ _) hpre

lemma sanitize_escape (p : List Component)
    (hroot : Component.rootDir ∉ p) (hpre : Component.prefixC ∉ p)
    (hesc : escapesB p = true) :
    sanitize_relative_path p = .error FsError.traversalAttempt := by
  have h := List.any_eq_true.mp hesc
  obtain ⟨i, _, hi⟩ := h
  refine sanitizeLoop_escape p p [] hroot hpre ⟨i, ?_⟩
  have := of_decide_eq_true hi
  simpa using this

lemma sanitizeLoop_ok_of_plain (orig : List Component) :
    ∀ (rest : List Component) (acc : List String),
      Component.rootDir ∉ rest → Component.prefixC ∉ rest →
      Component.parentDir ∉ rest →
      ∃ r, sanitizeLoop orig rest acc = .ok r := by
  intro rest
  induction rest with
  | nil => intro acc _ _ _; exact ⟨acc, rfl⟩
  | cons c rest ih =>
      intro acc hroot hpre hpar
      have hrootR : Component.rootDir ∉ rest :=
        fun h => hroot (List.mem_cons_of_mem _ h)
      have hpreR : Component.prefixC ∉ rest :=
        fun h => hpre (List.mem_cons_of_mem _ h)
      have hparR : Component.parentDir ∉ rest :=
        fun h => hpar (List.mem_cons_of_mem _ h)
      cases c with
      | curDir => simpa [sanitizeLoop] using ih acc hrootR hpreR hparR
      | normal s => simpa [sanitizeLoop] using ih (acc ++ [s]) hrootR hpreR hparR
      | parentDir => exact absurd (List.mem_cons_self _ _) hpar
      | rootDir => exact absurd (List.mem_cons_self _ _) hroot
      | prefixC => exact absurd (List.mem_cons_self _ _) hpre

lemma sanitize_ok_of_plain (p : List Component)
    (hroot : Component.rootDir ∉ p) (hpre : Component.prefixC ∉ p)
    (hpar : Component.parentDir ∉ p) :
    ∃ r, sanitize_relative_path p = .ok r :=
  sanitizeLoop_ok_of_plain p p [] hroot hpre hpar

/-! ## C1 — traversal rejection across filesystem and runner -/

/-- C1 counterexample: the relative path `a/../b.txt` contains a
parent-directory segment, yet `write_file` accepts it (the `fs.rs`
sanitizer pops balanced `..` segments instead of rejecting them) and writes
`<root>/b.txt`. The claim that every filesystem operation rejects every
path containing a `..` segment is therefore false. -/
theorem c1_counterexample :
    Component.parentDir ∈
      [Component.normal "a", Component.parentDir, Component.normal "b.txt"] ∧
    write_file ["ws"] []
      [Component.normal "a", Component.parentDir, Component.normal "b.txt"]
      [104] = .ok [(["ws", "b.txt"], [104])] := by
  constructor
  · decide
  · rfl

/-- C1 amended: `write_file`, `read_file` and the runner's working-directory
resolution reject, with `TraversalAttempt`, exactly those relative paths
whose `..` segments at some point outnumber the preceding normal segments
(i.e. would escape the root); they reject rooted paths with `AbsolutePath`;
and every accepted `write_file` resolves its target under the workspace
root, so no file is ever created outside the root. (Balanced `..` segments,
as in `a/../b`, are accepted and stay inside the root; the `path.rs`
resolver used by the Wasm runner additionally rejects any `..` — see C2.) -/
theorem c1_amended :
    (∀ (root : AbsPath) (fs : FileSystem) (p : List Component) (data : Bytes),
      Component.rootDir ∉ p → Component.prefixC ∉ p → escapesB p = true →
      data.length ≤ MAX_FILE_SIZE_BYTES →
      write_file root fs p data = .error FsError.traversalAttempt) ∧
    (∀ (root : AbsPath) (fs : FileSystem) (p : List Component),
      Component.rootDir ∉ p → Component.prefixC ∉ p → escapesB p = true →
      read_file root fs p = .error FsError.traversalAttempt) ∧
    (∀ (root : AbsPath) (cmd : String) (args : List String)
      (t : Option Nat) (p : List Component),
      is_command_allowed cmd = true →
      Component.rootDir ∉ p → Component.prefixC ∉ p → escapesB p = true →
      execute_with_config root cmd args ⟨t, some p⟩ =
        .error (RunError.workspace FsError.traversalAttempt)) ∧
    (∀ rest : List Component,
      sanitize_relative_path (Component.rootDir :: rest) =
        .error (FsError.absolutePath (Component.rootDir :: rest))) ∧
    (∀ (root : AbsPath) (fs : FileSystem) (p : List Component) (data : Bytes)
      (fs' : FileSystem), write_file root fs p data = .ok fs' →
      ∀ q b, (q, b) ∈ fs' → (q, b) ∈ fs ∨ q.take root.length = root) := by
  refine ⟨?_, ?_, ?_, ?_, ?_⟩
  · intro root fs p data hroot hpre hesc hlen
    have hsan := sanitize_escape p hroot hpre hesc
    have hnotbig : ¬ data.length > MAX_FILE_SIZE_BYTES := by omega
    simp [write_file, resolve_workspace_path, hsan, hnotbig]
  · intro root fs p hroot hpre hesc
    have hsan := sanitize_escape p hroot hpre hesc
    simp [read_file, resolve_workspace_path, hsan]
  · intro root cmd args t p hcmd hroot hpre hesc
    have hsan := sanitize_escape p hroot hpre hesc
    simp [execute_with_config, hcmd, resolve_workspace_path, hsan]
  · intro rest; rfl
  · intro root fs p data fs' hok q b hmem
    by_cases hbig : data.length > MAX_FILE_SIZE_BYTES
    · simp [write_file, hbig] at hok
    · cases hsan : sanitize_relative_path p with
      | error e =>
          simp [write_file, hbig, resolve_workspace_path, hsan] at hok
      | ok s =>
          have hfs : fs' = fsInsert fs (root ++ s) data := by
            have := hok
            simp [write_file, hbig, resolve_workspace_path, hsan] at this
            exact this.symm
          subst hfs
          simp only [fsInsert, List.mem_cons] at hmem
          cases hmem with
          | inl h =>
              right
              have hq : q = root ++ s := by
                exact congrArg Prod.fst h
              rw [hq]
              exact take_append_self root s
          | inr h => exact Or.inl h

/-- C1 witness: concrete instances of every clause of the amended theorem. -/
theorem c1_witness :
    write_file ["ws"] [] [Component.parentDir] [104] =
      .error FsError.traversalAttempt ∧
    read_file ["ws"] [] [Component.parentDir] =
      .error FsError.traversalAttempt ∧
    execute_with_config ["ws"] "sh" [] ⟨none, some [Component.parentDir]⟩ =
      .error (RunError.workspace FsError.traversalAttempt) ∧
    sanitize_relative_path [Component.rootDir, Component.normal "etc"] =
      .error (FsError.absolutePath [Component.rootDir, Component.normal "etc"]) ∧
    ((["ws", "ok.txt"], ([104] : Bytes)) ∈ ([] : FileSystem) ∨
      (["ws", "ok.txt"] : AbsPath).take 1 = ["ws"]) := by
  refine ⟨c1_amended.1 ["ws"] [] [Component.parentDir] [104] (by decide)
      (by decide) (by decide) (by decide),
    c1_amended.2.1 ["ws"] [] [Component.parentDir] (by decide) (by decide)
      (by decide),
    c1_amended.2.2.1 ["ws"] "sh" [] none [Component.parentDir] (by decide)
      (by decide) (by decide) (by decide),
    c1_amended.2.2.2.1 [Component.normal "etc"], ?_⟩
  have h := c1_amended.2.2.2.2 ["ws"] [] [Component.normal "ok.txt"] [104]
    [(["ws", "ok.txt"], [104])] (by rfl) ["ws", "ok.txt"] [104] (by decide)
  simp only [List.length_cons, List.length_nil] at h
  exact h

/-! ## C6 — read-after-write round trip -/

/-- C6 counterexample: a one-byte buffer `[0xFF]` is within the size cap and
`write_file` stores it, but `read_file` then fails with an I/O error because
`fs::read_to_string` requires valid UTF-8 — it does not return the bytes.
The round-trip law as stated (for every byte buffer within the cap) is
therefore false. -/
theorem c6_counterexample :
    ([255] : Bytes).length ≤ MAX_FILE_SIZE_BYTES ∧
    write_file ["ws"] [] [Component.normal "blob.bin"] [255] =
      .ok [(["ws", "blob.bin"], [255])] ∧
    read_file ["ws"] [(["ws", "blob.bin"], [255])]
      [Component.normal "blob.bin"] = .error FsError.ioError := by
  refine ⟨by decide, by rfl, by rfl⟩

/-- C6 amended: for every relative path (per the data-model invariant: no
parent segment, no rooted component) and every byte buffer within the size
cap that is valid UTF-8, writing and then reading returns exactly those
bytes (as the UTF-8 contents of the returned string). -/
theorem c6_amended (root : AbsPath) (fs : FileSystem) (p : List Component)
    (data : Bytes)
    (hroot : Component.rootDir ∉ p) (hpre : Component.prefixC ∉ p)
    (hpar : Component.parentDir ∉ p)
    (hlen : data.length ≤ MAX_FILE_SIZE_BYTES)
    (hvalid : validUtf8 data = true) :
    ∃ fs', write_file root fs p data = .ok fs' ∧
      read_file root fs' p = .ok data := by
  obtain ⟨s, hsan⟩ := sanitize_ok_of_plain p hroot hpre hpar
  have hnotbig : ¬ data.length > MAX_FILE_SIZE_BYTES := by omega
  refine ⟨fsInsert fs (root ++ s) data, ?_, ?_⟩
  · simp [write_file, hnotbig, resolve_workspace_path, hsan]
  · have hlook : fsLookup (fsInsert fs (root ++ s) data) (root ++ s) =
        some data := by
      simp [fsLookup, fsInsert]
    simp [read_file, resolve_workspace_path, hsan, hlook, hnotbig, hvalid]

/-- C6 witness: the round trip at a concrete path and UTF-8 buffer. -/
theorem c6_witness :
    ∃ fs', write_file ["ws"] [] [Component.normal "hello.txt"] [104, 105] =
        .ok fs' ∧
      read_file ["ws"] fs' [Component.normal "hello.txt"] = .ok [104, 105] :=
  c6_amended ["ws"] [] [Component.normal "hello.txt"] [104, 105]
    (by decide) (by decide) (by decide) (by decide) (by decide)

/-! ## C9 — read_file UTF-8 behaviour -/

/-- C9: `read_file` returns the file's contents as a UTF-8 string (modelled
by its byte sequence) when the stored bytes are valid UTF-8, and fails with
an I/O error — rather than returning the contents — whenever an existing
file within the size cap holds bytes that are not valid UTF-8. -/
theorem c9_read_utf8 :
    (∀ (root : AbsPath) (fs : FileSystem) (p : List Component)
      (target : AbsPath) (data : Bytes),
      resolve_workspace_path root p = .ok target →
      fsLookup fs target = some data →
      data.length ≤ MAX_FILE_SIZE_BYTES → validUtf8 data = false →
      read_file root fs p = .error FsError.ioError) ∧
    (∀ (root : AbsPath) (fs : FileSystem) (p : List Component)
      (target : AbsPath) (data : Bytes),
      resolve_workspace_path root p = .ok target →
      fsLookup fs target = some data →
      data.length ≤ MAX_FILE_SIZE_BYTES → validUtf8 data = true →
      read_file root fs p = .ok data) := by
  constructor
  · intro root fs p target data hres hlook hlen hbad
    have hnotbig : ¬ data.length > MAX_FILE_SIZE_BYTES := by omega
    simp [read_file, hres, hlook, hnotbig, hbad]
  · intro root fs p target data hres hlook hlen hgood
    have hnotbig : ¬ data.length > MAX_FILE_SIZE_BYTES := by omega
    simp [read_file, hres, hlook, hnotbig, hgood]

/-- C9 witness: a stored `0xC3 0x28` (invalid UTF-8) fails with an I/O
error; a stored `"hi"` is returned as-is. -/
theorem c9_witness :
    read_file ["ws"] [(["ws", "bad.txt"], [195, 40])]
      [Component.normal "bad.txt"] = .error FsError.ioError ∧
    read_file ["ws"] [(["ws", "good.txt"], [104, 105])]
      [Component.normal "good.txt"] = .ok [104, 105] :=
  ⟨c9_read_utf8.1 ["ws"] [(["ws", "bad.txt"], [195, 40])]
      [Component.normal "bad.txt"] ["ws", "bad.txt"] [195, 40]
      (by rfl) (by rfl) (by decide) (by rfl),
   c9_read_utf8.2 ["ws"] [(["ws", "good.txt"], [104, 105])]
      [Component.normal "good.txt"] ["ws", "good.txt"] [104, 105]
      (by rfl) (by rfl) (by decide) (by rfl)⟩

/-! ## C3 — timeout validation -/

/-- C3 counterexample: the process runner (`run.rs::execute_with_config`)
performs no timeout validation at all — a requested timeout of zero is not
rejected; the spawn plan is produced with an effective timeout of `0` (the
child is then killed on the immediately-expired deadline instead of the
request being refused). -/
theorem c3_counterexample :
    execute_with_config ["ws"] "sh" [] ⟨some 0, none⟩ =
      .ok ⟨"sh", [], ["ws"], 0⟩ := by
  rfl

/-- C3 amended: the micro-VM runner validates the effective timeout (the
supplied value, or the configured default when absent): zero is rejected,
any value above the configured maximum is rejected, and a value exactly
equal to the maximum is accepted. The plain process runner
(`run.rs::execute_with_config`) instead applies the supplied-or-default
timeout without any validation. -/
theorem c3_amended :
    (∀ d m : Nat, validateMicroTimeout (some 0) d m =
      .error (SandboxError.invalidOperation
        "micro execution timeout must be greater than zero")) ∧
    (∀ d m : Nat,
      validateMicroTimeout none d m = validateMicroTimeout (some d) d m) ∧
    (∀ d m t : Nat, m < t → validateMicroTimeout (some t) d m =
      .error (SandboxError.invalidOperation
        "requested timeout exceeds maximum")) ∧
    (∀ d m : Nat, 0 < m → validateMicroTimeout (some m) d m = .ok m) ∧
    (∀ (root : AbsPath) (cmd : String) (args : List String) (t : Nat),
      is_command_allowed cmd = true →
      execute_with_config root cmd args ⟨some t, none⟩ =
        .ok ⟨cmd, args, root, t⟩) := by
  refine ⟨?_, ?_, ?_, ?_, ?_⟩
  · intro d m; rfl
  · intro d m; rfl
  · intro d m t h
    have h0 : ¬ t = 0 := by omega
    simp [validateMicroTimeout, h0, h]
  · intro d m h
    have h0 : ¬ m = 0 := by omega
    have h1 : ¬ m > m := by omega
    simp [validateMicroTimeout, h0, h1]
  · intro root cmd args t hcmd
    simp [execute_with_config, hcmd]

/-- C3 witness: concrete instances of every clause of the amended theorem. -/
theorem c3_witness :
    validateMicroTimeout (some 0) 5 10 =
      .error (SandboxError.invalidOperation
        "micro execution timeout must be greater than zero") ∧
    validateMicroTimeout none 5 10 = validateMicroTimeout (some 5) 5 10 ∧
    validateMicroTimeout (some 11) 5 10 =
      .error (SandboxError.invalidOperation
        "requested timeout exceeds maximum") ∧
    validateMicroTimeout (some 10) 5 10 = .ok 10 ∧
    execute_with_config ["ws"] "sh" [] ⟨some 10, none⟩ =
      .ok ⟨"sh", [], ["ws"], 10⟩ :=
  ⟨c3_amended.1 5 10, c3_amended.2.1 5 10,
   c3_amended.2.2.1 5 10 11 (by decide), c3_amended.2.2.2.1 5 10 (by decide),
   c3_amended.2.2.2.2 ["ws"] "sh" [] 10 (by decide)⟩

/-! ## C5 — output caps -/

/-- Total byte count of a captured stream's chunks. -/
def totalLen : List Bytes → Nat
  | [] => 0
  | c :: rest => c.length + totalLen rest

lemma readStreamLoop_ok_le (stream : OutputStream) :
    ∀ (chunks : List Bytes) (acc buf : Bytes),
      acc.length ≤ MAX_OUTPUT_BYTES →
      readStreamLoop stream chunks acc = .ok buf →
      buf.length ≤ MAX_OUTPUT_BYTES := by
  intro chunks
  induction chunks with
  | nil =>
      intro acc buf hacc h
      simp only [readStreamLoop, Except.ok.injEq] at h
      rw [← h]; exact hacc
  | cons chunk rest ih =>
      intro acc buf hacc h
      by_cases hg : acc.length + chunk.length > MAX_OUTPUT_BYTES
      · simp [readStreamLoop, hg] at h
      · simp only [readStreamLoop, hg, if_false] at h
        exact ih (acc ++ chunk) buf (by simp only [List.length_append]; omega) h

lemma readStreamLoop_overflow (stream : OutputStream) :
    ∀ (chunks : List Bytes) (acc : Bytes),
      acc.length ≤ MAX_OUTPUT_BYTES →
      MAX_OUTPUT_BYTES < acc.length + totalLen chunks →
      readStreamLoop stream chunks acc =
        .error (RunError.outputLimit stream MAX_OUTPUT_BYTES) := by
  intro chunks
  induction chunks with
  | nil =>
      intro acc hacc hover
      simp only [totalLen] at hover
      omega
  | cons chunk rest ih =>
      intro acc hacc hover
      by_cases hg : acc.length + chunk.length > MAX_OUTPUT_BYTES
      · simp [readStreamLoop, hg]
      · simp only [readStreamLoop, hg, if_false]
        refine ih (acc ++ chunk) (by simp only [List.length_append]; omega) ?_
        simp only [List.length_append, totalLen] at hover ⊢
        omega

/-- C5: on success each captured stream holds at most `MAX_OUTPUT_BYTES`
bytes; a stream whose total output exceeds the cap makes the capture fail
with `OutputLimit`, naming the stream and the limit (`run.rs`); and the
micro runner's post-termination check enforces the same bound with
`OutputTooLarge` naming the stream and the limit (`micro.rs`). -/
theorem c5_output_caps :
    (∀ (stream : OutputStream) (chunks : List Bytes) (buf : Bytes),
      read_stream stream chunks = .ok buf →
      buf.length ≤ MAX_OUTPUT_BYTES) ∧
    (∀ (stream : OutputStream) (chunks : List Bytes),
      MAX_OUTPUT_BYTES < totalLen chunks →
      read_stream stream chunks =
        .error (RunError.outputLimit stream MAX_OUTPUT_BYTES)) ∧
    (∀ (maxOut : Nat) (out : RawOutput) (dur : Nat) (res : MicroOutput),
      microFinish maxOut out dur = .ok res →
      res.stdout.length ≤ maxOut ∧ res.stderr.length ≤ maxOut) ∧
    (∀ (maxOut : Nat) (out : RawOutput) (dur : Nat),
      maxOut < out.stdout.length →
      microFinish maxOut out dur =
        .error (SandboxError.outputTooLarge "stdout" maxOut)) ∧
    (∀ (maxOut : Nat) (out : RawOutput) (dur : Nat),
      out.stdout.length ≤ maxOut → maxOut < out.stderr.length →
      microFinish maxOut out dur =
        .error (SandboxError.outputTooLarge "stderr" maxOut)) := by
  refine ⟨?_, ?_, ?_, ?_, ?_⟩
  · intro stream chunks buf h
    exact readStreamLoop_ok_le stream chunks [] buf (by simp) h
  · intro stream chunks h
    exact readStreamLoop_overflow stream chunks [] (by simp) (by simpa using h)
  · intro maxOut out dur res h
    by_cases h1 : out.stdout.length > maxOut
    · simp [microFinish, h1] at h
    · by_cases h2 : out.stderr.length > maxOut
      · simp [microFinish, h1, h2] at h
      · cases hc : out.exitStatusCode with
        | none => simp [microFinish, h1, h2, hc] at h
        | some code =>
            simp only [microFinish, h1, if_false, h2, hc,
              Except.ok.injEq] at h
            have hs : res.stdout = out.stdout := by rw [← h]
            have he : res.stderr = out.stderr := by rw [← h]
            rw [hs, he]
            exact ⟨by omega, by omega⟩
  · intro maxOut out dur h
    simp [microFinish, h]
  · intro maxOut out dur h1 h2
    have h1n : ¬ out.stdout.length > maxOut := by omega
    simp [microFinish, h1n, h2]

/-- A 524289-byte chunk, one byte over the 512 KiB cap. -/
def bigChunk : Bytes := List.replicate 524289 0

lemma totalLen_single (c : Bytes) : totalLen [c] = c.length := by
  simp [totalLen]

lemma bigChunk_length : bigChunk.length = 524289 := by
  rw [bigChunk]
  exact List.length_replicate 524289 0

/-- C5 witness: concrete instances of every clause. -/
theorem c5_output_caps_witness :
    ([104, 105] : Bytes).length ≤ MAX_OUTPUT_BYTES ∧
    read_stream OutputStream.stdout [bigChunk] =
      .error (RunError.outputLimit OutputStream.stdout MAX_OUTPUT_BYTES) ∧
    (([1] : Bytes).length ≤ 8 ∧ ([2] : Bytes).length ≤ 8) ∧
    microFinish 1 ⟨some 0, [1, 2], []⟩ 5 =
      .error (SandboxError.outputTooLarge "stdout" 1) ∧
    microFinish 1 ⟨some 0, [1], [2, 3]⟩ 5 =
      .error (SandboxError.outputTooLarge "stderr" 1) :=
  ⟨c5_output_caps.1 OutputStream.stdout [[104, 105]] [104, 105] (by rfl),
   c5_output_caps.2.1 OutputStream.stdout [bigChunk]
     (by rw [totalLen_single, bigChunk_length, MAX_OUTPUT_BYTES]; norm_num),
   c5_output_caps.2.2.1 8 ⟨some 0, [1], [2]⟩ 7 ⟨0, [1], [2], 7⟩ (by rfl),
   c5_output_caps.2.2.2.1 1 ⟨some 0, [1, 2], []⟩ 5 (by decide),
   c5_output_caps.2.2.2.2 1 ⟨some 0, [1], [2, 3]⟩ 5 (by decide) (by decide)⟩

/-! ## C7 — Wasm per-call limits -/

/-- C7 counterexample: a per-call fuel value of zero is not rejected — the
limit-resolution phase of `invoke_from_bytes` accepts it and configures a
zero fuel budget (only the memory and table limits have zero checks). The
claim that any zero per-call resource limit is rejected with
`InvalidOperation` is therefore false. -/
theorem c7_counterexample :
    wasmLimits ⟨65536, 128, none⟩ (some 0) none none =
      .ok (some 0, 65536, 128) := by
  rfl

/-- C7 amended: a zero per-call memory limit or table-element limit is
rejected with `InvalidOperation`; a zero per-call fuel value is accepted
(it is applied as a zero fuel budget, which then traps on execution); and
any supplied per-call value — including fuel — overrides the corresponding
configured default, the defaults being used when no per-call value is
supplied. -/
theorem c7_amended :
    (∀ (cfg : WasmConfig) (f t : Option Nat),
      wasmLimits cfg f (some 0) t =
        .error (SandboxError.invalidOperation
          "wasm memory limit must be greater than zero")) ∧
    (∀ (cfg : WasmConfig) (f : Option Nat) (m : Nat), 0 < m →
      wasmLimits cfg f (some m) (some 0) =
        .error (SandboxError.invalidOperation
          "wasm table element limit must be greater than zero")) ∧
    (∀ (cfg : WasmConfig) (f m t : Nat), 0 < m → 0 < t →
      wasmLimits cfg (some f) (some m) (some t) = .ok (some f, m, t)) ∧
    (∀ cfg : WasmConfig, 0 < cfg.max_memory_bytes →
      0 < cfg.max_table_elements →
      wasmLimits cfg none none none =
        .ok (cfg.default_fuel, cfg.max_memory_bytes,
          cfg.max_table_elements)) := by
  refine ⟨?_, ?_, ?_, ?_⟩
  · intro cfg f t; rfl
  · intro cfg f m hm
    have h0 : ¬ m = 0 := by omega
    simp [wasmLimits, h0]
  · intro cfg f m t hm ht
    have hm0 : ¬ m = 0 := by omega
    have ht0 : ¬ t = 0 := by omega
    simp [wasmLimits, hm0, ht0]
  · intro cfg hm ht
    have hm0 : ¬ cfg.max_memory_bytes = 0 := by omega
    have ht0 : ¬ cfg.max_table_elements = 0 := by omega
    simp [wasmLimits, hm0, ht0]

/-- C7 witness: concrete instances of every clause of the amended theorem. -/
theorem c7_witness :
    wasmLimits ⟨65536, 128, some 1000⟩ none (some 0) none =
      .error (SandboxError.invalidOperation
        "wasm memory limit must be greater than zero") ∧
    wasmLimits ⟨65536, 128, some 1000⟩ none (some 4096) (some 0) =
      .error (SandboxError.invalidOperation
        "wasm table element limit must be greater than zero") ∧
    wasmLimits ⟨65536, 128, some 1000⟩ (some 9) (some 4096) (some 16) =
      .ok (some 9, 4096, 16) ∧
    wasmLimits ⟨65536, 128, some 1000⟩ none none none =
      .ok (some 1000, 65536, 128) :=
  ⟨c7_amended.1 ⟨65536, 128, some 1000⟩ none none,
   c7_amended.2.1 ⟨65536, 128, some 1000⟩ none 4096 (by decide),
   c7_amended.2.2.1 ⟨65536, 128, some 1000⟩ 9 4096 16 (by decide) (by decide),
   c7_amended.2.2.2 ⟨65536, 128, some 1000⟩ (by decide) (by decide)⟩

/-! ## C8 — empty-objective rejection in dispatch -/

/-- C8: `dispatch` rejects an objective that is empty or consists only of
whitespace — the trimmed objective is what is checked — with
`InvalidOperation`, before any task id is consumed and with the registries
returned unchanged (so no entry is inserted into `active`). -/
theorem c8_dispatch_objective (cfg : DispatcherConfig) (s : DispatcherState)
    (req : AgentDispatchRequest) (freshId now : Nat)
    (h : (rustTrim req.objective).isEmpty = true) :
    dispatch cfg s req freshId now =
      (.error (SandboxError.invalidOperation "objective must not be empty"),
        s) := by
  simp [dispatch, h]

/-- C8 witness: a whitespace-only objective (spaces and a tab) is rejected
and the registries are untouched. -/
theorem c8_dispatch_objective_witness :
    dispatch ⟨"test", 128, 524288, [AgentKind.code]⟩ emptyDispatcher
      ⟨AgentKind.code, "  \t ", emptyContext, none, none, none⟩ 7 3 =
      (.error (SandboxError.invalidOperation "objective must not be empty"),
        emptyDispatcher) :=
  c8_dispatch_objective ⟨"test", 128, 524288, [AgentKind.code]⟩
    emptyDispatcher ⟨AgentKind.code, "  \t ", emptyContext, none, none, none⟩
    7 3 (by decide)

/-! ## C4 — cancel semantics -/

lemma find_replace (e : AgentTaskEntry) :
    ∀ (l : List (Nat × AgentTaskEntry)) (id : Nat),
      (l.find? (fun kv => kv.1 == id)).isSome = true →
      (l.map (fun kv => if kv.1 == id then (kv.1, e) else kv)).find?
        (fun kv => kv.1 == id) = some (id, e) := by
  intro l
  induction l with
  | nil => intro id h; simp [List.find?] at h
  | cons kv rest ih =>
      intro id h
      by_cases hk : (kv.1 == id) = true
      · have heq : kv.1 = id := by simpa using hk
        simp [List.find?, hk, heq]
      · have hk' : (kv.1 == id) = false := by
          simpa using hk
        simp only [List.find?, hk', List.map, if_false, Bool.false_eq_true]
          at h ⊢
        exact ih id h

lemma lookupActive_setActive (s : DispatcherState) (id : Nat)
    (e : AgentTaskEntry) (h : (lookupActive s id).isSome = true) :
    lookupActive (setActive s id e) id = some e := by
  have hfind : (s.active.find? (fun kv => kv.1 == id)).isSome = true := by
    simpa [lookupActive] using h
  simp only [lookupActive, setActive]
  rw [find_replace e s.active id hfind]
  rfl

/-- C4 amended: `cancel` is always safe to call — it returns either a
snapshot or an `AgentTaskNotFound` error — and it is idempotent for a
terminal task *that is still present in the `active` registry* (e.g. one
already forced to `Cancelled` by an earlier cancel whose worker has not yet
finalized): it returns that task's snapshot unchanged and leaves the task
state unchanged, only latching the cancellation token. Once the worker's
finalization removes a terminal task from `active`, `cancel` instead returns
`AgentTaskNotFound` (see the counterexample). -/
theorem c4_amended (s : DispatcherState) (id : Nat)
    (entry : AgentTaskEntry) (now : Nat)
    (hfind : lookupActive s id = some entry)
    (hterm : entry.state.status.isTerminal = true) :
    (cancel s id now).1 = .ok entry.state.snapshot ∧
    lookupActive (cancel s id now).2 id =
      some { entry with cancelRequested := true } := by
  constructor
  · simp [cancel, hfind, hterm]
  · have hsome : (lookupActive s id).isSome = true := by
      rw [hfind]; rfl
    simp only [cancel, hfind, hterm, if_true]
    exact lookupActive_setActive s id _ hsome

/-- The dispatcher registries after dispatching one task (id 1) with a stub
agent result and letting the worker run to completion: the task is finalized
as `Completed`, removed from `active`, and its snapshot is appended to
`history`. -/
def finishedTaskState : DispatcherState :=
  workerFinalize 128
    (workerStart
      ((dispatch ⟨"test", 128, 524288, [AgentKind.code]⟩ emptyDispatcher
        ⟨AgentKind.code, "build module", emptyContext, none, none, none⟩
        1 0).2)
      1 5)
    1 (.ok ⟨"done", [], [], "ok"⟩) 9

/-- C4 counterexample: after the worker finalizes a task it reaches the
terminal status `Completed` (visible in `history`), but `cancel` on that
task id then fails with `AgentTaskNotFound` instead of succeeding with the
task's snapshot — the finalization removed the entry from `active`, which is
the only registry `cancel` consults. -/
theorem c4_counterexample :
    finishedTaskState.history.map (fun sn => sn.status) =
      [AgentTaskStatus.completed] ∧
    finishedTaskState.active = [] ∧
    cancel finishedTaskState 1 20 =
      (.error (SandboxError.agentTaskNotFound "1"), finishedTaskState) := by
  refine ⟨by rfl, by rfl, by rfl⟩

/-- A registry holding one task already forced to `Cancelled` (terminal) but
not yet finalized by its worker, as produced by an earlier `cancel`. -/
def terminalActiveEntry : AgentTaskEntry :=
  ⟨⟨1, AgentKind.code, "build module", "test", AgentTaskStatus.cancelled,
    0, none, some 7, none, none, none, ⟨some 768⟩⟩, true⟩

def terminalActiveState : DispatcherState :=
  ⟨[(1, terminalActiveEntry)], []⟩

/-- C4 witness: on a terminal task still in `active`, `cancel` succeeds with
the unchanged snapshot and preserves the stored task state. -/
theorem c4_witness :
    (cancel terminalActiveState 1 20).1 =
      .ok terminalActiveEntry.state.snapshot ∧
    lookupActive (cancel terminalActiveState 1 20).2 1 =
      some { terminalActiveEntry with cancelRequested := true } :=
  c4_amended terminalActiveState 1 terminalActiveEntry 20 (by rfl) (by rfl)

end Coder
